import Mathlib

/-!
Verification of the HEMCO configuration-file parsers
(`src/utils/python/HemcoConfigParsers/`): a shallow embedding of the four
line-oriented parsers (`parse_hemco_config`, `parse_hemco_diagn`,
`parse_hemco_species`, `parse_hemco_grid`) together with theorems about
their behaviour.  Lines are Lean `String`s (as produced by `readlines`,
i.e. usually ending in a newline); Python `dict`s are insertion-ordered
association lists; Python runtime faults (`IndexError`, `KeyError`, ...)
are modelled with `Except`.
-/

/-- The whitespace class used by Python's `str.split()` and by the blank-line
regular expression `^\s*$` (restricted to the ASCII whitespace characters,
which are the only ones these configuration files contain). -/
def pyIsSpace (c : Char) : Bool :=
  c = ' ' || c = '\t' || c = '\n' || c = '\r' || c = '\x0b' || c = '\x0c'

/-- Models `re.match(r'^\s*$', line)`: the line is empty or whitespace-only. -/
def pyIsBlank (s : String) : Bool :=
  s.data.all pyIsSpace

/-- Models Python `line.startswith(p)`. -/
def pyStartsWith (s p : String) : Bool :=
  p.data.isPrefixOf s.data

/-- Models Python `c in line` for a single character `c`. -/
def pyContainsChar (s : String) (c : Char) : Bool :=
  s.data.contains c

/-- Models Python `s.strip()`: remove leading and trailing whitespace. -/
def pyStrip (s : String) : String :=
  String.mk (((s.data.dropWhile pyIsSpace).reverse.dropWhile pyIsSpace).reverse)

/-- Worker for `pySplit` (Python `str.split()` with no argument): `acc` holds
the characters of the token currently being read, in reverse. -/
def pySplitAux : List Char → List Char → List String
  | [], acc => if acc.isEmpty then [] else [String.mk acc.reverse]
  | c :: cs, acc =>
    if pyIsSpace c then
      if acc.isEmpty then pySplitAux cs []
      else String.mk acc.reverse :: pySplitAux cs []
    else pySplitAux cs (c :: acc)

/-- Models Python `line.split()`: split on runs of whitespace, dropping
empty tokens. -/
def pySplit (s : String) : List String :=
  pySplitAux s.data []

/-- Worker for `pySplitChar` (Python `str.split(sep)` for a one-character
separator, keeping empty fields). -/
def pySplitCharAux (sep : Char) : List Char → List Char → List String
  | [], acc => [String.mk acc.reverse]
  | c :: cs, acc =>
    if c == sep then String.mk acc.reverse :: pySplitCharAux sep cs []
    else pySplitCharAux sep cs (c :: acc)

/-- Models Python `line.split(sep)` for a one-character separator `sep`:
split at every occurrence, keeping empty fields. -/
def pySplitChar (sep : Char) (s : String) : List String :=
  pySplitCharAux sep s.data []

/-- Worker for `pySplitChar1` (Python `str.split(sep, 1)` for a one-character
separator): stop after the first occurrence of the separator. -/
def pySplitChar1Aux (sep : Char) : List Char → List Char → List String
  | [], acc => [String.mk acc.reverse]
  | c :: cs, acc =>
    if c == sep then [String.mk acc.reverse, String.mk cs]
    else pySplitChar1Aux sep cs (c :: acc)

/-- Models Python `line.split(sep, 1)` for a one-character separator. -/
def pySplitChar1 (sep : Char) (s : String) : List String :=
  pySplitChar1Aux sep s.data []

/-- Worker for `pySplitSub` (Python `str.split(sep)` for a non-empty
multi-character separator): scan for each non-overlapping occurrence of
the separator `s0 :: srest`, left to right.  `acc` holds the current
field's characters in reverse; a positive `skip` means that many
characters of an already-matched separator are still to be consumed. -/
def pySplitSubAux (s0 : Char) (srest : List Char) :
    List Char → List Char → Nat → List (List Char)
  | [], acc, _ => [acc.reverse]
  | _ :: cs, acc, skip + 1 => pySplitSubAux s0 srest cs acc skip
  | c :: cs, acc, 0 =>
    if (s0 :: srest).isPrefixOf (c :: cs) then
      acc.reverse :: pySplitSubAux s0 srest cs [] srest.length
    else
      pySplitSubAux s0 srest cs (c :: acc) 0

/-- Models Python `line.split(sep)` for a non-empty separator string,
keeping empty fields. -/
def pySplitSub (sep : String) (s : String) : List String :=
  match sep.data with
  | [] => [s]
  | c :: cs => (pySplitSubAux c cs s.data [] 0).map String.mk

/-- Python `dict` lookup `d[k]`, as an `Option` (a missing key is the
caller's `KeyError`). -/
def dictGet? {α : Type} (d : List (String × α)) (k : String) : Option α :=
  (d.find? (fun p => p.1 == k)).map (·.2)

/-- Python `dict` assignment `d[k] = v`: overwrite in place when `k` is
present (its position is kept), append otherwise. -/
def dictSet {α : Type} (d : List (String × α)) (k : String) (v : α) :
    List (String × α) :=
  if d.any (fun p => p.1 == k) then
    d.map (fun p => if p.1 == k then (k, v) else p)
  else d ++ [(k, v)]

/-- The Python runtime faults these parsers can raise. -/
inductive PyErr where
  | indexError : PyErr
  | keyError : String → PyErr
  | attributeError : PyErr
  | valueError : PyErr
deriving DecidableEq

/-- Python truthiness of an optional string (`if current_section:`):
`None` and the empty string are falsy. -/
def pyTruthy : Option String → Bool
  | none => false
  | some s => !(s == "")

/-! ## Main-config dialect: `config2yaml.py` / `Convert_HemcoConfig2yaml.py`,
`parse_hemco_config` -/

/-- A value stored in a main-config section body: either the string of a
`key: value` line, or the list of token-rows of a subsection. -/
inductive CVal where
  | str : String → CVal
  | rows : List (List String) → CVal
deriving DecidableEq

/-- The mutable state of `parse_hemco_config`'s loop: `config_dict`,
`current_section`, `current_sub_section`. -/
structure ConfigState where
  dict : List (String × List (String × CVal))
  sec : Option String
  sub : Option String
deriving DecidableEq

/-- One iteration of the `for line in lines` loop of `parse_hemco_config`
(`config2yaml.py` lines 37-69). -/
def configStep (st : ConfigState) (line : String) : Except PyErr ConfigState :=
  if pyStartsWith line "!" || pyStartsWith line "#" then .ok st
  else if pyIsBlank line then .ok st
  else if pyStartsWith line "BEGIN SECTION" then
    match (pySplitSub "SECTION" line).get? 1 with
    | none => .error .indexError
    | some seg =>
      let name := pyStrip seg
      .ok { dict := dictSet st.dict name [], sec := some name, sub := st.sub }
  else if pyStartsWith line "END SECTION" then
    .ok { st with sec := none, sub := none }
  else if pyStartsWith line "%" then .ok st
  else if pyTruthy st.sec then
    let sec := st.sec.getD ""
    if pyContainsChar line ':' then
      match pySplitChar1 ':' line with
      | [k, v] =>
        match dictGet? st.dict sec with
        | none => .error (.keyError sec)
        | some body =>
          .ok { st with
                dict := dictSet st.dict sec (dictSet body (pyStrip k) (.str (pyStrip v))) }
      | _ => .error .valueError
    else
      let parts := pySplit line
      if pyTruthy st.sub then
        let sub := st.sub.getD ""
        match dictGet? st.dict sec with
        | none => .error (.keyError sec)
        | some body =>
          match dictGet? body sub with
          | none => .error (.keyError sub)
          | some (.str _) => .error .attributeError
          | some (.rows rs) =>
            .ok { st with
                  dict := dictSet st.dict sec (dictSet body sub (.rows (rs ++ [parts]))) }
      else
        match parts with
        | [] => .error .indexError
        | p0 :: _ =>
          match dictGet? st.dict sec with
          | none => .error (.keyError sec)
          | some body =>
            .ok { dict := dictSet st.dict sec (dictSet body p0 (.rows [parts])),
                  sec := st.sec, sub := some p0 }
  else .ok st

/-- The initial loop state of `parse_hemco_config`. -/
def configInit : ConfigState := { dict := [], sec := none, sub := none }

/-- The whole `for` loop of `parse_hemco_config`, stopping at the first
Python fault. -/
def configFold : ConfigState → List String → Except PyErr ConfigState
  | st, [] => .ok st
  | st, l :: ls =>
    match configStep st l with
    | .ok st2 => configFold st2 ls
    | .error e => .error e

/-- Function `parse_hemco_config` of `config2yaml.py` (identically
`Convert_HemcoConfig2yaml.py`), applied to the list of lines read from the
file: returns `config_dict` or the Python fault raised. -/
def parse_hemco_config (lines : List String) :
    Except PyErr (List (String × List (String × CVal))) :=
  (configFold configInit lines).map (·.dict)

/-! ## Diagnostics dialect: `convert_diag2yaml.py`, `parse_hemco_diagn` -/

/-- The record built from one diagnostics data-row
(`convert_diag2yaml.py` lines 47-56). -/
structure DiagRecord where
  Name : String
  Spec : String
  ExtNr : String
  Cat : String
  Hier : String
  Dim : String
  OutUnit : String
  LongName : String
deriving DecidableEq

/-- Decoding of one diagnostics data-row from its whitespace tokens:
`parts[0] .. parts[6]` positionally and `" ".join(parts[7:])`; fewer than
7 tokens is Python's `IndexError`. -/
def diagDecodeRow (parts : List String) : Except PyErr DiagRecord :=
  match parts with
  | p0 :: p1 :: p2 :: p3 :: p4 :: p5 :: p6 :: rest =>
    .ok { Name := p0, Spec := p1, ExtNr := p2, Cat := p3, Hier := p4,
          Dim := p5, OutUnit := p6, LongName := String.intercalate " " rest }
  | _ => .error .indexError

/-- The mutable state of `parse_hemco_diagn`'s loop: `diagn_dict` and
`current_section`. -/
structure DiagState where
  dict : List (String × List DiagRecord)
  sec : Option String
deriving DecidableEq

/-- One iteration of the `for line in lines` loop of `parse_hemco_diagn`
(`convert_diag2yaml.py` lines 30-57). -/
def diagStep (st : DiagState) (line : String) : Except PyErr DiagState :=
  if pyStartsWith line "!" || pyStartsWith line "#" then .ok st
  else if pyIsBlank line then .ok st
  else if pyStartsWith line "BEGIN" then
    match (pySplitChar ' ' line).get? 1 with
    | none => .error .indexError
    | some seg =>
      let name := pyStrip seg
      .ok { dict := dictSet st.dict name [], sec := some name }
  else if pyStartsWith line "END" then
    .ok { st with sec := none }
  else if pyTruthy st.sec then
    let sec := st.sec.getD ""
    match dictGet? st.dict sec with
    | none => .error (.keyError sec)
    | some rs =>
      match diagDecodeRow (pySplit line) with
      | .error e => .error e
      | .ok r => .ok { st with dict := dictSet st.dict sec (rs ++ [r]) }
  else .ok st

/-- The initial loop state of `parse_hemco_diagn`. -/
def diagInit : DiagState := { dict := [], sec := none }

/-- The whole `for` loop of `parse_hemco_diagn`, stopping at the first
Python fault. -/
def diagFold : DiagState → List String → Except PyErr DiagState
  | st, [] => .ok st
  | st, l :: ls =>
    match diagStep st l with
    | .ok st2 => diagFold st2 ls
    | .error e => .error e

/-- Function `parse_hemco_diagn` of `convert_diag2yaml.py`, applied to the list of
lines read from the file. -/
def parse_hemco_diagn (lines : List String) :
    Except PyErr (List (String × List DiagRecord)) :=
  (diagFold diagInit lines).map (·.dict)

/-! ## Species dialect: `spec2yaml.py`, `parse_hemco_species` -/

/-- The record built from one species data-row (`spec2yaml.py`
lines 51-56). -/
structure SpeciesRecord where
  MW : String
  K0 : String
  CR : String
  pKA : String
deriving DecidableEq

/-- Decoding of one species data-row from its whitespace tokens: keyed by
`parts[1]` with fields `parts[2] .. parts[5]`; `parts[0]` is discarded and
tokens past the sixth are ignored.  Fewer than 6 tokens is Python's
`IndexError`. -/
def speciesDecodeRow (parts : List String) : Except PyErr (String × SpeciesRecord) :=
  match parts with
  | _ :: p1 :: p2 :: p3 :: p4 :: p5 :: _ =>
    .ok (p1, { MW := p2, K0 := p3, CR := p4, pKA := p5 })
  | _ => .error .indexError

/-- The mutable state of `parse_hemco_species`'s loop: `species_dict` and
`current_section`. -/
structure SpeciesState where
  dict : List (String × List (String × SpeciesRecord))
  sec : Option String
deriving DecidableEq

/-- One iteration of the `for line in lines` loop of `parse_hemco_species`
(`spec2yaml.py` lines 36-57). -/
def speciesStep (st : SpeciesState) (line : String) : Except PyErr SpeciesState :=
  if pyStartsWith line "!" || pyStartsWith line "#" then .ok st
  else if pyIsBlank line then .ok st
  else if pyStartsWith line "BEGIN" then
    match (pySplitChar ' ' line).get? 1 with
    | none => .error .indexError
    | some seg =>
      let name := pyStrip seg
      .ok { dict := dictSet st.dict name [], sec := some name }
  else if pyStartsWith line "END" then
    .ok { st with sec := none }
  else if pyTruthy st.sec then
    let sec := st.sec.getD ""
    match speciesDecodeRow (pySplit line) with
    | .error e => .error e
    | .ok (key, rec) =>
      match dictGet? st.dict sec with
      | none => .error (.keyError sec)
      | some body =>
        .ok { st with dict := dictSet st.dict sec (dictSet body key rec) }
  else .ok st

/-- The initial loop state of `parse_hemco_species`. -/
def speciesInit : SpeciesState := { dict := [], sec := none }

/-- The whole `for` loop of `parse_hemco_species`, stopping at the first
Python fault. -/
def speciesFold : SpeciesState → List String → Except PyErr SpeciesState
  | st, [] => .ok st
  | st, l :: ls =>
    match speciesStep st l with
    | .ok st2 => speciesFold st2 ls
    | .error e => .error e

/-- Function `parse_hemco_species` of `spec2yaml.py`, applied to the list of lines
read from the file. -/
def parse_hemco_species (lines : List String) :
    Except PyErr (List (String × List (String × SpeciesRecord))) :=
  (speciesFold speciesInit lines).map (·.dict)

/-! ## Grid dialect: `grid2yaml.py`, `parse_hemco_grid` -/

/-- One iteration of the `for line in lines` loop of `parse_hemco_grid`
(`grid2yaml.py` lines 30-41): `key, value = line.split(':', 1)`;
`value.split('#')[0].strip()`.  No state beyond the flat `grid_dict`; no
Python fault is reachable (the `split(':', 1)` unpacking is guarded by
`':' in line`, and `split('#')` is never empty), and the unreachable
fallbacks leave the dictionary unchanged. -/
def gridStep (d : List (String × String)) (line : String) : List (String × String) :=
  if pyStartsWith line "!" || pyStartsWith line "#" then d
  else if pyIsBlank line then d
  else if pyContainsChar line ':' then
    match pySplitChar1 ':' line with
    | [k, v] => dictSet d (pyStrip k) (pyStrip ((pySplitChar '#' v).headD ""))
    | _ => d
  else d

/-- Function `parse_hemco_grid` of `grid2yaml.py`, applied to the list of lines read
from the file: a flat string-to-string mapping, no sections. -/
def parse_hemco_grid (lines : List String) : List (String × String) :=
  lines.foldl gridStep []

/-! ## Claim theorems -/

deriving instance DecidableEq for Except

/-- C1: the spec says a SECTION_BEGIN clears the current-subsection cursor,
so that after a second `BEGIN SECTION` the first data-row starts a fresh
subsection.  The code (`config2yaml.py` lines 43-47) never resets
`current_sub_section` on `BEGIN SECTION` (only `END SECTION` does, lines
48-51); on the input below the data-row `y 2` after the second `BEGIN`
therefore appends to the stale subsection `x`, which is absent from the
fresh section `B`'s empty body, and the code raises `KeyError('x')`
instead of creating subsection `y`. -/
theorem c1_begin_keeps_stale_subsection_keyerror :
    parse_hemco_config
      ["BEGIN SECTION A\n", "x 1\n", "BEGIN SECTION B\n", "y 2\n"] =
      .error (.keyError "x") := by
  decide

/-- C2 counterexample: in the main-config dialect a bare `END` line does
NOT end the section (only `END SECTION` is recognised,
`config2yaml.py` line 48); inside the active section `A` it is treated as
a data-row, creating the subsection `END` and leaving the section open
(`current_section` is still `A`). -/
theorem c2_cex_bare_end_is_data_row :
    configFold configInit ["BEGIN SECTION A\n", "END\n"] =
      .ok { dict := [("A", [("END", .rows [["END"]])])],
            sec := some "A", sub := some "END" } := by
  decide

/-- C3 counterexample: the extracted section name is not the whole trimmed
text after the BEGIN marker.  In the diagnostics dialect
(`convert_diag2yaml.py` line 37, `line.split(' ')[1]`) the line
`BEGIN My Section` yields the section name `My`, not `My Section`; in the
main dialect (`config2yaml.py` line 44, `line.split('SECTION')[1]`) the
line `BEGIN SECTION A SECTION B` yields `A`, not `A SECTION B`. -/
theorem c3_cex_multiword_names_truncated :
    parse_hemco_diagn ["BEGIN My Section\n"] = .ok [("My", [])] ∧
    parse_hemco_config ["BEGIN SECTION A SECTION B\n"] = .ok [("A", [])] := by
  constructor
  · decide
  · decide

/-- C4 counterexample: a diagnostics data-row with fewer than 7 whitespace
tokens inside an active section makes `parse_hemco_diagn` raise a bare
out-of-range `IndexError` (`convert_diag2yaml.py` lines 47-56, `parts[6]`
of a 3-token row); no schema-violation report carrying the line's content
or number exists anywhere in the code. -/
theorem c4_cex_short_row_index_fault :
    parse_hemco_diagn ["BEGIN Diag\n", "a b c\n"] = .error .indexError := by
  decide

/-- C5 counterexample: `config2yaml.py` line 52 tests
`line.startswith('%')`, so EVERY line beginning with `%` is skipped, not
just the bare `%` marker: the line `%foo: bar` inside section `A` is
dropped and contributes no key-value entry, leaving `A`'s body empty. -/
theorem c5_cex_percent_with_text_skipped :
    parse_hemco_config ["BEGIN SECTION A\n", "%foo: bar\n", "END SECTION\n"] =
      .ok [("A", [])] := by
  decide

/-- C6: the species-dialect input `BEGIN Species\n1 NO2 46.0 1e-5 0.0 3.4\nEND`
parses to exactly `{"Species": {"NO2": {"MW": "46.0", "K0": "1e-5",
"CR": "0.0", "pKA": "3.4"}}}`: the record is keyed by the second token and
the first token `1` is discarded. -/
theorem c6_species_concrete_scenario :
    parse_hemco_species ["BEGIN Species\n", "1 NO2 46.0 1e-5 0.0 3.4\n", "END"] =
      .ok [("Species", [("NO2", { MW := "46.0", K0 := "1e-5",
                                  CR := "0.0", pKA := "3.4" })])] := by
  decide

/-- C7: for every diagnostics data-row with at least 7 whitespace tokens
(i.e. of shape `p0 :: ... :: p6 :: rest`), the first seven tokens map
positionally to Name, Spec, ExtNr, Cat, Hier, Dim, OutUnit, and LongName
is the remaining tokens joined with single spaces — the empty string when
the row has exactly 7 tokens (`rest = []`). -/
theorem c7_diag_decode_fields :
    ∀ (p0 p1 p2 p3 p4 p5 p6 : String) (rest : List String),
      diagDecodeRow (p0 :: p1 :: p2 :: p3 :: p4 :: p5 :: p6 :: rest) =
        .ok { Name := p0, Spec := p1, ExtNr := p2, Cat := p3, Hier := p4,
              Dim := p5, OutUnit := p6,
              LongName := String.intercalate " " rest } ∧
      diagDecodeRow [p0, p1, p2, p3, p4, p5, p6] =
        .ok { Name := p0, Spec := p1, ExtNr := p2, Cat := p3, Hier := p4,
              Dim := p5, OutUnit := p6, LongName := "" } := by
  intro p0 p1 p2 p3 p4 p5 p6 rest
  exact ⟨rfl, rfl⟩

/-- C10: in the species dialect, tokens beyond the sixth have no effect on
the decoded entry: decoding a row of more than 6 tokens equals decoding
the row truncated to its first six tokens, and the entry is keyed by the
second token with fields MW, K0, CR, pKA taken from tokens 3-6. -/
theorem c10_species_extra_tokens_ignored :
    ∀ (p0 p1 p2 p3 p4 p5 : String) (rest : List String),
      speciesDecodeRow (p0 :: p1 :: p2 :: p3 :: p4 :: p5 :: rest) =
        speciesDecodeRow ((p0 :: p1 :: p2 :: p3 :: p4 :: p5 :: rest).take 6) ∧
      speciesDecodeRow (p0 :: p1 :: p2 :: p3 :: p4 :: p5 :: rest) =
        .ok (p1, { MW := p2, K0 := p3, CR := p4, pKA := p5 }) := by
  intro p0 p1 p2 p3 p4 p5 rest
  exact ⟨rfl, rfl⟩

/-- A cons-list is not a prefix of a list whose head differs. -/
theorem isPrefixOf_cons_ne {α : Type} [BEq α] (a b : α) (as bs : List α)
    (h : (a == b) = false) : List.isPrefixOf (a :: as) (b :: bs) = false := by
  simp [List.isPrefixOf, h]

/-- A list is a prefix of itself followed by anything. -/
theorem isPrefixOf_self_append (l t : List Char) :
    List.isPrefixOf l (l ++ t) = true := by
  induction l with
  | nil => simp [List.isPrefixOf]
  | cons c cs ih => simp [List.isPrefixOf, ih]

/-- A line beginning with a non-whitespace character is not blank. -/
theorem pyIsBlank_cons_false (c : Char) (t : List Char) (h : pyIsSpace c = false) :
    pyIsBlank (String.mk (c :: t)) = false := by
  simp [pyIsBlank, List.all_cons, h]

/-- C5 amended: in the main-config dialect EVERY line that starts with `%`
is skipped with no effect on the parser state, whether or not further text
follows the marker (`config2yaml.py` line 52 tests `line.startswith('%')`,
not equality with the bare marker). -/
theorem c5_amended_percent_lines_skipped :
    ∀ (t : List Char) (st : ConfigState),
      configStep st (String.mk ('%' :: t)) = .ok st := by
  intro t st
  have h1 : pyStartsWith (String.mk ('%' :: t)) "!" = false :=
    isPrefixOf_cons_ne '!' '%' [] t (by decide)
  have h2 : pyStartsWith (String.mk ('%' :: t)) "#" = false :=
    isPrefixOf_cons_ne '#' '%' [] t (by decide)
  have h3 : pyIsBlank (String.mk ('%' :: t)) = false :=
    pyIsBlank_cons_false '%' t (by decide)
  have h4 : pyStartsWith (String.mk ('%' :: t)) "BEGIN SECTION" = false :=
    isPrefixOf_cons_ne 'B' '%' "EGIN SECTION".data t (by decide)
  have h5 : pyStartsWith (String.mk ('%' :: t)) "END SECTION" = false :=
    isPrefixOf_cons_ne 'E' '%' "ND SECTION".data t (by decide)
  have h6 : pyStartsWith (String.mk ('%' :: t)) "%" = true :=
    isPrefixOf_self_append ['%'] t
  simp only [configStep, h1, h2, h3, h4, h5, h6, Bool.or_self, Bool.false_or,
    if_false, if_true, Bool.false_eq_true, ite_false, ite_true]

/-- Unfolding lemma: `(String.mk l).data` is `l`. -/
@[simp] theorem data_mk (l : List Char) : (String.mk l).data = l := rfl

/-- The first field produced by a single-character split is the text up to
the first separator (appended to the pending accumulator). -/
theorem pySplitCharAux_head? (sep : Char) :
    ∀ (l acc : List Char),
      (pySplitCharAux sep l acc).head? =
        some (String.mk (acc.reverse ++ l.takeWhile (fun x => !(x == sep)))) := by
  intro l
  induction l with
  | nil => intro acc; simp [pySplitCharAux]
  | cons c cs ih =>
    intro acc
    rw [pySplitCharAux]
    by_cases h : (c == sep) = true
    · simp [h, List.takeWhile_cons, pySplitCharAux]
    · have h' : (c == sep) = false := by
        cases hc : (c == sep) with
        | true => exact absurd hc h
        | false => rfl
      simp [h', List.takeWhile_cons, ih]

/-- Same statement for `headD`. -/
theorem pySplitCharAux_headD (sep : Char) (l acc : List Char) (d : String) :
    (pySplitCharAux sep l acc).headD d =
      String.mk (acc.reverse ++ l.takeWhile (fun x => !(x == sep))) := by
  have h := pySplitCharAux_head? sep l acc
  cases hres : pySplitCharAux sep l acc with
  | nil => rw [hres] at h; exact absurd h (by simp)
  | cons x xs => rw [hres] at h; simp at h; simp [h]

/-- A single-character split with `maxsplit = 1`, on a list that contains
the separator: the two fields are the text before and after its first
occurrence. -/
theorem pySplitChar1Aux_of_contains (sep : Char) :
    ∀ (l acc : List Char), l.contains sep = true →
      pySplitChar1Aux sep l acc =
        [String.mk (acc.reverse ++ l.takeWhile (fun x => !(x == sep))),
         String.mk ((l.dropWhile (fun x => !(x == sep))).drop 1)] := by
  intro l
  induction l with
  | nil => intro acc h; simp [List.contains] at h
  | cons c cs ih =>
    intro acc h
    rw [pySplitChar1Aux]
    by_cases hc : (c == sep) = true
    · simp [hc, List.takeWhile_cons, List.dropWhile_cons]
    · have hc' : (c == sep) = false := by
        cases hx : (c == sep) with
        | true => exact absurd hx hc
        | false => rfl
      have hcs : cs.contains sep = true := by
        rw [List.contains_cons] at h
        cases hx : (sep == c) with
        | true =>
          exact absurd (beq_iff_eq.mpr (beq_iff_eq.mp hx).symm) hc
        | false => simpa [hx] using h
      simp [hc', List.takeWhile_cons, List.dropWhile_cons, ih _ hcs]

/-- The text up to (but not including) the next occurrence of the separator
`s0 :: srest`, the whole list when it does not occur. -/
def upToSub (s0 : Char) (srest : List Char) : List Char → List Char
  | [] => []
  | c :: cs =>
    if (s0 :: srest).isPrefixOf (c :: cs) then [] else c :: upToSub s0 srest cs

/-- The first field produced by a multi-character split is the text up to
the first occurrence of the separator. -/
theorem pySplitSubAux_head? (s0 : Char) (srest : List Char) :
    ∀ (l acc : List Char),
      (pySplitSubAux s0 srest l acc 0).head? =
        some (acc.reverse ++ upToSub s0 srest l) := by
  intro l
  induction l with
  | nil => intro acc; simp [pySplitSubAux, upToSub]
  | cons c cs ih =>
    intro acc
    rw [pySplitSubAux, upToSub]
    by_cases h : ((s0 :: srest).isPrefixOf (c :: cs)) = true
    · simp [h]
    · have h' : ((s0 :: srest).isPrefixOf (c :: cs)) = false := by
        cases hx : ((s0 :: srest).isPrefixOf (c :: cs)) with
        | true => exact absurd hx h
        | false => rfl
      simp [h', ih]

/-- Evaluating `line.split(' ')[1]` on a diagnostics/species `BEGIN ` line: the second
single-space-separated field is the text after `BEGIN ` up to the next
space (or to the end of the line). -/
theorem pySplitChar_begin_get1 (rest : List Char) :
    (pySplitChar ' ' (String.mk ("BEGIN ".data ++ rest))).get? 1 =
      some (String.mk (rest.takeWhile (fun x => !(x == ' ')))) := by
  have hscan : pySplitChar ' ' (String.mk ("BEGIN ".data ++ rest)) =
      String.mk "BEGIN".data :: pySplitCharAux ' ' rest [] := by
    simp [pySplitChar, pySplitCharAux]
  rw [hscan]
  have hh := pySplitCharAux_head? ' ' rest []
  cases hres : pySplitCharAux ' ' rest [] with
  | nil => rw [hres] at hh; exact absurd hh (by simp)
  | cons x xs =>
    rw [hres] at hh
    simp only [List.head?_cons, Option.some.injEq] at hh
    simp [hh]

/-- Evaluating `line.split('SECTION')[1]` on a main-dialect `BEGIN SECTION` line: the
second field is the text after the leading `BEGIN SECTION` marker up to
the next occurrence of `SECTION` (or to the end of the line). -/
theorem pySplitSub_begin_get1 (t : List Char) :
    (pySplitSub "SECTION" (String.mk ("BEGIN SECTION".data ++ t))).get? 1 =
      some (String.mk (upToSub 'S' "ECTION".data t)) := by
  show ((pySplitSubAux 'S' "ECTION".data ("BEGIN SECTION".data ++ t) [] 0).map
      String.mk).get? 1 = _
  have hscan : pySplitSubAux 'S' "ECTION".data ("BEGIN SECTION".data ++ t) [] 0 =
      "BEGIN ".data :: pySplitSubAux 'S' "ECTION".data t [] 0 := by
    simp [pySplitSubAux, List.isPrefixOf]
  rw [hscan]
  have hh := pySplitSubAux_head? 'S' "ECTION".data t []
  cases hres : pySplitSubAux 'S' "ECTION".data t [] 0 with
  | nil => rw [hres] at hh; exact absurd hh (by simp)
  | cons x xs =>
    rw [hres] at hh
    simp only [List.head?_cons, Option.some.injEq, List.reverse_nil,
      List.nil_append] at hh
    simp [hh]

/-- Python `str.split()` starting from a non-empty pending token never returns
the empty list. -/
theorem pySplitAux_ne_nil_acc :
    ∀ (l acc : List Char), acc.isEmpty = false → pySplitAux l acc ≠ [] := by
  intro l
  induction l with
  | nil => intro acc h; simp [pySplitAux, h]
  | cons c cs ih =>
    intro acc h
    rw [pySplitAux]
    by_cases hs : pyIsSpace c = true
    · simp [hs, h]
    · have hs' : pyIsSpace c = false := by
        cases hx : pyIsSpace c with
        | true => exact absurd hx hs
        | false => rfl
      simp only [hs', Bool.false_eq_true, if_false]
      exact ih (c :: acc) rfl

/-- Python `str.split()` of a list with at least one non-whitespace character
never returns the empty list. -/
theorem pySplitAux_ne_nil :
    ∀ (l acc : List Char), l.all pyIsSpace = false → pySplitAux l acc ≠ [] := by
  intro l
  induction l with
  | nil => intro acc h; simp at h
  | cons c cs ih =>
    intro acc h
    rw [pySplitAux]
    by_cases hs : pyIsSpace c = true
    · have hcs : cs.all pyIsSpace = false := by
        rw [List.all_cons, hs] at h
        simpa using h
      by_cases ha : acc.isEmpty = true
      · simp [hs, ha]
        exact ih [] hcs
      · have ha' : acc.isEmpty = false := by
          cases hx : acc.isEmpty with
          | true => exact absurd hx ha
          | false => rfl
        simp [hs, ha']
    · have hs' : pyIsSpace c = false := by
        cases hx : pyIsSpace c with
        | true => exact absurd hx hs
        | false => rfl
      simp only [hs', Bool.false_eq_true, if_false]
      exact pySplitAux_ne_nil_acc cs (c :: acc) rfl

/-- A non-blank line splits into at least one whitespace token
(`line.split()` is non-empty). -/
theorem pySplit_ne_nil (s : String) (h : pyIsBlank s = false) :
    pySplit s ≠ [] :=
  pySplitAux_ne_nil s.data [] h

/-- C2 amended: in the diagnostics and species dialects ANY line starting
with `END` ends the current section; in the main-config dialect only a
line starting with `END SECTION` does, and a bare `END` line inside an
active main-dialect section is instead treated as a data-row (creating a
subsection named `END` and leaving the section open). -/
theorem c2_amended_end_recognition :
    ∀ (t : List Char),
      (∀ st : DiagState,
        diagStep st (String.mk ('E' :: 'N' :: 'D' :: t)) =
          .ok { st with sec := none }) ∧
      (∀ st : SpeciesState,
        speciesStep st (String.mk ('E' :: 'N' :: 'D' :: t)) =
          .ok { st with sec := none }) ∧
      (∀ st : ConfigState,
        configStep st (String.mk ("END SECTION".data ++ t)) =
          .ok { st with sec := none, sub := none }) ∧
      configStep { dict := [("A", [])], sec := some "A", sub := none } "END" =
        .ok { dict := [("A", [("END", .rows [["END"]])])],
              sec := some "A", sub := some "END" } := by
  intro t
  refine ⟨fun st => ?_, fun st => ?_, fun st => ?_, by decide⟩
  · have h1 : pyStartsWith (String.mk ('E' :: 'N' :: 'D' :: t)) "!" = false :=
      isPrefixOf_cons_ne '!' 'E' [] _ (by decide)
    have h2 : pyStartsWith (String.mk ('E' :: 'N' :: 'D' :: t)) "#" = false :=
      isPrefixOf_cons_ne '#' 'E' [] _ (by decide)
    have h3 : pyIsBlank (String.mk ('E' :: 'N' :: 'D' :: t)) = false :=
      pyIsBlank_cons_false 'E' _ (by decide)
    have h4 : pyStartsWith (String.mk ('E' :: 'N' :: 'D' :: t)) "BEGIN" = false :=
      isPrefixOf_cons_ne 'B' 'E' "EGIN".data _ (by decide)
    have h5 : pyStartsWith (String.mk ('E' :: 'N' :: 'D' :: t)) "END" = true :=
      isPrefixOf_self_append ['E', 'N', 'D'] t
    unfold diagStep
    rw [h1, h2, h3, h4, h5]
    simp
  · have h1 : pyStartsWith (String.mk ('E' :: 'N' :: 'D' :: t)) "!" = false :=
      isPrefixOf_cons_ne '!' 'E' [] _ (by decide)
    have h2 : pyStartsWith (String.mk ('E' :: 'N' :: 'D' :: t)) "#" = false :=
      isPrefixOf_cons_ne '#' 'E' [] _ (by decide)
    have h3 : pyIsBlank (String.mk ('E' :: 'N' :: 'D' :: t)) = false :=
      pyIsBlank_cons_false 'E' _ (by decide)
    have h4 : pyStartsWith (String.mk ('E' :: 'N' :: 'D' :: t)) "BEGIN" = false :=
      isPrefixOf_cons_ne 'B' 'E' "EGIN".data _ (by decide)
    have h5 : pyStartsWith (String.mk ('E' :: 'N' :: 'D' :: t)) "END" = true :=
      isPrefixOf_self_append ['E', 'N', 'D'] t
    unfold speciesStep
    rw [h1, h2, h3, h4, h5]
    simp
  · have h1 : pyStartsWith (String.mk ("END SECTION".data ++ t)) "!" = false :=
      isPrefixOf_cons_ne '!' 'E' [] _ (by decide)
    have h2 : pyStartsWith (String.mk ("END SECTION".data ++ t)) "#" = false :=
      isPrefixOf_cons_ne '#' 'E' [] _ (by decide)
    have h3 : pyIsBlank (String.mk ("END SECTION".data ++ t)) = false :=
      pyIsBlank_cons_false 'E' _ (by decide)
    have h4 : pyStartsWith (String.mk ("END SECTION".data ++ t)) "BEGIN SECTION" = false :=
      isPrefixOf_cons_ne 'B' 'E' "EGIN SECTION".data _ (by decide)
    have h5 : pyStartsWith (String.mk ("END SECTION".data ++ t)) "END SECTION" = true :=
      isPrefixOf_self_append "END SECTION".data t
    unfold configStep
    rw [h1, h2, h3, h4, h5]
    simp

/-- C3 amended: the extracted section name is NOT the whole trimmed text
after the BEGIN marker.  In the diagnostics and species dialects it is the
trimmed text after `BEGIN ` up to the next space (the second single-space
-separated field), so a multi-word name is truncated to its first word; in
the main dialect it is the trimmed text after the `BEGIN SECTION` marker
up to the next occurrence of the word `SECTION` (or the end of the line),
so a name containing `SECTION` is truncated at it. -/
theorem c3_amended_name_extraction :
    ∀ (t : List Char),
      (∀ st : DiagState,
        diagStep st (String.mk ("BEGIN ".data ++ t)) =
          .ok { dict := dictSet st.dict
                  (pyStrip (String.mk (t.takeWhile (fun x => !(x == ' '))))) [],
                sec := some
                  (pyStrip (String.mk (t.takeWhile (fun x => !(x == ' '))))) }) ∧
      (∀ st : SpeciesState,
        speciesStep st (String.mk ("BEGIN ".data ++ t)) =
          .ok { dict := dictSet st.dict
                  (pyStrip (String.mk (t.takeWhile (fun x => !(x == ' '))))) [],
                sec := some
                  (pyStrip (String.mk (t.takeWhile (fun x => !(x == ' '))))) }) ∧
      (∀ st : ConfigState,
        configStep st (String.mk ("BEGIN SECTION".data ++ t)) =
          .ok { dict := dictSet st.dict
                  (pyStrip (String.mk (upToSub 'S' "ECTION".data t))) [],
                sec := some (pyStrip (String.mk (upToSub 'S' "ECTION".data t))),
                sub := st.sub }) := by
  intro t
  refine ⟨fun st => ?_, fun st => ?_, fun st => ?_⟩
  · have h1 : pyStartsWith (String.mk ("BEGIN ".data ++ t)) "!" = false :=
      isPrefixOf_cons_ne '!' 'B' [] _ (by decide)
    have h2 : pyStartsWith (String.mk ("BEGIN ".data ++ t)) "#" = false :=
      isPrefixOf_cons_ne '#' 'B' [] _ (by decide)
    have h3 : pyIsBlank (String.mk ("BEGIN ".data ++ t)) = false :=
      pyIsBlank_cons_false 'B' _ (by decide)
    have h4 : pyStartsWith (String.mk ("BEGIN ".data ++ t)) "BEGIN" = true :=
      isPrefixOf_self_append "BEGIN".data (' ' :: t)
    unfold diagStep
    rw [h1, h2, h3, h4, pySplitChar_begin_get1 t]
    simp
  · have h1 : pyStartsWith (String.mk ("BEGIN ".data ++ t)) "!" = false :=
      isPrefixOf_cons_ne '!' 'B' [] _ (by decide)
    have h2 : pyStartsWith (String.mk ("BEGIN ".data ++ t)) "#" = false :=
      isPrefixOf_cons_ne '#' 'B' [] _ (by decide)
    have h3 : pyIsBlank (String.mk ("BEGIN ".data ++ t)) = false :=
      pyIsBlank_cons_false 'B' _ (by decide)
    have h4 : pyStartsWith (String.mk ("BEGIN ".data ++ t)) "BEGIN" = true :=
      isPrefixOf_self_append "BEGIN".data (' ' :: t)
    unfold speciesStep
    rw [h1, h2, h3, h4, pySplitChar_begin_get1 t]
    simp
  · have h1 : pyStartsWith (String.mk ("BEGIN SECTION".data ++ t)) "!" = false :=
      isPrefixOf_cons_ne '!' 'B' [] _ (by decide)
    have h2 : pyStartsWith (String.mk ("BEGIN SECTION".data ++ t)) "#" = false :=
      isPrefixOf_cons_ne '#' 'B' [] _ (by decide)
    have h3 : pyIsBlank (String.mk ("BEGIN SECTION".data ++ t)) = false :=
      pyIsBlank_cons_false 'B' _ (by decide)
    have h4 : pyStartsWith (String.mk ("BEGIN SECTION".data ++ t)) "BEGIN SECTION" = true :=
      isPrefixOf_self_append "BEGIN SECTION".data t
    unfold configStep
    rw [h1, h2, h3, h4, pySplitSub_begin_get1 t]
    simp

/-- C4 amended: a diagnostics data-row with fewer than 7 whitespace tokens
makes the decoder (and hence `parse_hemco_diagn` on any file containing
such a row inside an active section) raise a bare out-of-range
`IndexError`; no explicit schema-violation report carrying the offending
line's content or line number is produced. -/
theorem c4_amended_short_row_behaviour :
    (∀ parts : List String, parts.length < 7 →
        diagDecodeRow parts = .error .indexError) ∧
      parse_hemco_diagn ["BEGIN Diag\n", "a b Hg0 -1 -1 2\n"] =
        .error .indexError := by
  constructor
  · intro parts h
    rcases parts with _ | ⟨p0, _ | ⟨p1, _ | ⟨p2, _ | ⟨p3, _ | ⟨p4, _ | ⟨p5, _ | ⟨p6, rest⟩⟩⟩⟩⟩⟩⟩
    · rfl
    · rfl
    · rfl
    · rfl
    · rfl
    · rfl
    · rfl
    · exfalso
      simp only [List.length_cons] at h
      omega
  · decide

/-- A Bool that is not true is false. -/
theorem bool_not_true {b : Bool} (h : ¬ b = true) : b = false := by
  cases b with
  | false => rfl
  | true => exact absurd rfl h

/-- The grid-dialect line contract stated in the claim's own words: a
non-comment, non-blank line containing `:` contributes the entry whose key
is the trimmed text before the first `:` and whose value is the text after
the first `:` with everything from the first `#` onward removed and the
remainder trimmed; every other line contributes nothing. -/
def gridClaimEntry? (line : String) : Option (String × String) :=
  if pyStartsWith line "!" || pyStartsWith line "#" then none
  else if pyIsBlank line then none
  else if pyContainsChar line ':' then
    some (pyStrip (String.mk (line.data.takeWhile (fun x => !(x == ':')))),
          pyStrip (String.mk
            (((line.data.dropWhile (fun x => !(x == ':'))).drop 1).takeWhile
              (fun x => !(x == '#')))))
  else none

/-- The flat mapping the claim describes: fold the per-line entries into a
string-to-string dictionary. -/
def gridClaimFold (lines : List String) : List (String × String) :=
  lines.foldl
    (fun d line =>
      match gridClaimEntry? line with
      | some (k, v) => dictSet d k v
      | none => d) []

/-- One grid parser step produces exactly the entry the claim describes. -/
theorem gridStep_eq_claim (d : List (String × String)) (line : String) :
    gridStep d line =
      match gridClaimEntry? line with
      | some (k, v) => dictSet d k v
      | none => d := by
  unfold gridStep gridClaimEntry?
  by_cases h1 : (pyStartsWith line "!" || pyStartsWith line "#") = true
  · simp [h1]
  · rw [if_neg h1, if_neg h1]
    by_cases h2 : pyIsBlank line = true
    · simp [h2]
    · rw [if_neg h2, if_neg h2]
      by_cases h3 : pyContainsChar line ':' = true
      · rw [if_pos h3, if_pos h3]
        have hsplit := pySplitChar1Aux_of_contains ':' line.data [] h3
        have hs : pySplitChar1 ':' line =
            [String.mk (line.data.takeWhile (fun x => !(x == ':'))),
             String.mk ((line.data.dropWhile (fun x => !(x == ':'))).drop 1)] := by
          rw [pySplitChar1, hsplit]
          simp
        rw [hs]
        have hval := pySplitCharAux_headD '#'
          ((line.data.dropWhile (fun x => !(x == ':'))).drop 1) [] ""
        have hv : (pySplitChar '#'
            (String.mk ((line.data.dropWhile (fun x => !(x == ':'))).drop 1))).headD "" =
            String.mk
              (((line.data.dropWhile (fun x => !(x == ':'))).drop 1).takeWhile
                (fun x => !(x == '#'))) := by
          rw [pySplitChar, data_mk, hval]
          simp
        simp only [hv]
      · rw [if_neg h3, if_neg h3]

/-- C8: `parse_hemco_grid` returns the flat string-to-string mapping the
claim describes — every non-comment, non-blank line containing `:`
contributes exactly its trimmed-key / comment-stripped-trimmed-value
entry, every other line contributes nothing, and there are no sections or
nesting (the result type is a flat association list). -/
theorem c8_grid_flat_key_value (lines : List String) :
    parse_hemco_grid lines = gridClaimFold lines := by
  unfold parse_hemco_grid gridClaimFold
  congr 1
  funext d line
  exact gridStep_eq_claim d line

/-- Whether a step result is Python's `IndexError`. -/
def isIndexErr {α : Type} : Except PyErr α → Bool
  | .error .indexError => true
  | _ => false

/-- C9: no iteration of the main-config parser loop can raise an
`IndexError`: a line that reaches data-row handling is not whitespace-only
(blank lines were already skipped), so `line.split()` yields at least one
token and taking `parts[0]` for the new subsection name is always
well-defined (and the guarded `split('SECTION')[1]` of a `BEGIN SECTION`
line is likewise always present). -/
theorem c9_config_step_no_index_fault (st : ConfigState) (line : String) :
    isIndexErr (configStep st line) = false := by
  obtain ⟨l⟩ := line
  unfold configStep
  by_cases h1 : (pyStartsWith (String.mk l) "!" || pyStartsWith (String.mk l) "#") = true
  · rw [if_pos h1]; rfl
  · rw [if_neg h1]
    by_cases h2 : pyIsBlank (String.mk l) = true
    · rw [if_pos h2]; rfl
    · rw [if_neg h2]
      by_cases h3 : pyStartsWith (String.mk l) "BEGIN SECTION" = true
      · obtain ⟨t, rfl⟩ : ∃ t, l = "BEGIN SECTION".data ++ t := by
          obtain ⟨t, ht⟩ := List.isPrefixOf_iff_prefix.mp h3
          exact ⟨t, ht.symm⟩
        rw [if_pos h3, pySplitSub_begin_get1 t]
        rfl
      · rw [if_neg h3]
        by_cases h4 : pyStartsWith (String.mk l) "END SECTION" = true
        · rw [if_pos h4]; rfl
        · rw [if_neg h4]
          by_cases h5 : pyStartsWith (String.mk l) "%" = true
          · rw [if_pos h5]; rfl
          · rw [if_neg h5]
            cases h6 : pyTruthy st.sec with
            | false => rw [if_neg (by decide)]; rfl
            | true =>
              rw [if_pos rfl]
              by_cases h7 : pyContainsChar (String.mk l) ':' = true
              · rw [if_pos h7]
                rcases pySplitChar1 ':' (String.mk l) with _ | ⟨k, _ | ⟨v, _ | _⟩⟩
                · rfl
                · rfl
                · cases dictGet? st.dict (st.sec.getD "") with
                  | none => rfl
                  | some body => rfl
                · rfl
              · rw [if_neg h7]
                cases h8 : pyTruthy st.sub with
                | true =>
                  rw [if_pos rfl]
                  cases dictGet? st.dict (st.sec.getD "") with
                  | none => rfl
                  | some body =>
                    dsimp only
                    cases dictGet? body (st.sub.getD "") with
                    | none => rfl
                    | some cv =>
                      cases cv with
                      | str s => rfl
                      | rows rs => rfl
                | false =>
                  rw [if_neg (by decide)]
                  cases hp : pySplit (String.mk l) with
                  | nil =>
                    exact absurd hp (pySplit_ne_nil _ (bool_not_true h2))
                  | cons p0 ps =>
                    cases dictGet? st.dict (st.sec.getD "") with
                    | none => rfl
                    | some body => rfl
